import Mathlib

/-!
Verification development for the Dog card-game rule engine
(`server/py/dog.py`).  The Python classes `Card`, `Marble`, `PlayerState`,
`Action` and `GameState` are embedded as Lean structures; the methods of the
`Dog` class that the verified properties depend on are translated into pure
state-passing functions.  Python in-place mutation becomes explicit record
update; a method that can raise returns the state as mutated up to the raise
point together with an error tag, mirroring the fact that Python exceptions
leave already-performed mutations in place.
-/

set_option maxRecDepth 100000

namespace Dog

/-- `Card(suit, rank)`: value-based identity on the two string fields. -/
structure Card where
  suit : String
  rank : String
deriving DecidableEq, Repr

/-- `Marble(pos, is_save)`: `pos = -1` is the kennel, `0..95` board squares. -/
structure Marble where
  pos : Int
  is_save : Bool
deriving DecidableEq, Repr

/-- `PlayerState(name, list_card, list_marble)`. -/
structure PlayerState where
  name : String
  list_card : List Card
  list_marble : List Marble
deriving DecidableEq, Repr

/-- `Action(card, pos_from, pos_to, card_swap)`; equality and hashing in the
source compare exactly these four fields. -/
structure Action where
  card : Card
  pos_from : Option Int
  pos_to : Option Int
  card_swap : Option Card
deriving DecidableEq, Repr

/-- `GamePhase` enum. -/
inductive GamePhase where
  | SETUP
  | RUNNING
  | FINISHED
deriving DecidableEq, Repr

/-- `GameState`: the mutable game state of the `Dog` class. -/
structure GameState where
  cnt_player : Nat
  phase : GamePhase
  cnt_round : Int
  bool_card_exchanged : Bool
  idx_player_started : Nat
  idx_player_active : Nat
  list_player : List PlayerState
  list_card_draw : List Card
  list_card_discard : List Card
  card_active : Option Card
deriving DecidableEq, Repr

/-- Python errors that the translated methods can raise. -/
inductive PyErr where
  | valueError
  | stopIteration
  | attributeError
deriving DecidableEq, Repr

/-- `GameState.LIST_SUIT`. -/
def LIST_SUIT : List String := ["♠", "♥", "♦", "♣"]

/-- `GameState.LIST_RANK` (13 ranks plus the joker). -/
def LIST_RANK : List String :=
  ["2", "3", "4", "5", "6", "7", "8", "9", "10", "J", "Q", "K", "A", "JKR"]

/-- The 55 distinct deck entries, in the source's construction order:
for each rank block, the four suits in order, and finally three jokers. -/
def halfDeck : List Card :=
  (["2", "3", "4", "5", "6", "7", "8", "9", "10", "J", "Q", "K", "A"].flatMap
    fun r => LIST_SUIT.map fun su => ⟨su, r⟩)
  ++ [⟨"", "JKR"⟩, ⟨"", "JKR"⟩, ⟨"", "JKR"⟩]

/-- `GameState.LIST_CARD`: the 110-card deck (`halfDeck * 2`). -/
def LIST_CARD : List Card := halfDeck ++ halfDeck

/-- Default player used for (guarded) list lookups. -/
def emptyPlayer : PlayerState := ⟨"", [], []⟩

/-- Default marble used for (guarded) list lookups. -/
def mdef : Marble := ⟨0, false⟩

/-- `self.state.list_player[self.state.idx_player_active]`. -/
def activePlayer (s : GameState) : PlayerState :=
  s.list_player.getD s.idx_player_active emptyPlayer

/-- Replace the active player's `PlayerState` (Python mutates it in place). -/
def setActive (s : GameState) (p : PlayerState) : GameState :=
  { s with list_player := s.list_player.set s.idx_player_active p }

/-- Overwrite marble `mi` of player `pi` (in-place mutation of one marble). -/
def setMarble (s : GameState) (pi mi : Nat) (m : Marble) : GameState :=
  let p := s.list_player.getD pi emptyPlayer
  { s with list_player :=
      s.list_player.set pi { p with list_marble := p.list_marble.set mi m } }

/-- Python `str.isdigit`: nonempty and all characters digits. -/
def rankIsDigit (r : String) : Bool := !r.isEmpty && r.all Char.isDigit

/-- Python `int(rank)` for a digit rank. -/
def rankVal (r : String) : Int := (r.toNat?).getD 0

/-- `_check_if_save_marble_between_current_and_destination`: scans every
marble of every player; a save marble not in the kennel blocks when it lies
in `(current, destination]` for a forward move, or beyond `current` /
up to `destination` for a move wrapping past square 0. -/
def checkSaveBetween (s : GameState) (current destination : Int) : Bool :=
  s.list_player.any fun p => p.list_marble.any fun m =>
    m.is_save && !(m.pos == -1) &&
      (if current < destination then
        decide (current < m.pos) && decide (m.pos ≤ destination)
       else
        decide (m.pos > current) || decide (m.pos ≤ destination))

/-- A square strictly between `a` and `b` in the forward circular
direction of travel (wrapping past square 0 when `b ≤ a`): the spec's
notion of a blocking position for the path-blocking property. -/
def strictlyBetween (a b p : Int) : Prop :=
  if a < b then a < p ∧ p < b else (a < p ∨ (0 ≤ p ∧ p < b))

instance (a b p : Int) : Decidable (strictlyBetween a b p) := by
  unfold strictlyBetween; infer_instance

/-- Joker substitution actions in `get_list_action`: with `cnt_round == 0`
only A/K of each suit, otherwise every rank except `JKR` of each suit. -/
def jokerSwaps (s : GameState) (card : Card) : List Action :=
  if s.cnt_round = 0 then
    LIST_SUIT.flatMap fun su =>
      [⟨card, none, none, some ⟨su, "A"⟩⟩, ⟨card, none, none, some ⟨su, "K"⟩⟩]
  else
    LIST_SUIT.flatMap fun su =>
      LIST_RANK.dropLast.map fun rk => ⟨card, none, none, some ⟨su, rk⟩⟩

/-- Per-marble actions for a non-joker card in `get_list_action`:
kennel exit for A/K (blocked when any own marble already sits on square 0),
or a numbered advance guarded by the save-marble path check. -/
def marbleMoves (s : GameState) (player : PlayerState) (card : Card)
    (m : Marble) : List Action :=
  if m.pos = -1 ∧ (card.rank = "A" ∨ card.rank = "K") then
    if player.list_marble.any (fun m2 => m2.pos == 0) then []
    else [⟨card, some 64, some 0, none⟩]
  else if 0 ≤ m.pos ∧ rankIsDigit card.rank then
    let newPos := (m.pos + rankVal card.rank) % 96
    if checkSaveBetween s m.pos newPos then []
    else [⟨card, some m.pos, some newPos, none⟩]
  else []

/-- Jack swap actions: both directions between each own on-board marble and
each opponent on-board non-save marble; if no opponent marble qualifies,
both directions between pairs of distinct own on-board marbles. -/
def jackMoves (s : GameState) (player : PlayerState) (card : Card) :
    List Action :=
  let playerPositions :=
    (player.list_marble.filter fun m => decide (0 ≤ m.pos)).map (·.pos)
  let opponentPositions := s.list_player.flatMap fun opp =>
    if opp = player then []
    else (opp.list_marble.filter fun m =>
            decide (0 ≤ m.pos) && !m.is_save).map (·.pos)
  let swaps := playerPositions.flatMap fun pp =>
    opponentPositions.flatMap fun op =>
      [⟨card, some pp, some op, none⟩, ⟨card, some op, some pp, none⟩]
  if opponentPositions.isEmpty then
    swaps ++ (player.list_marble.flatMap fun m1 =>
      if 0 ≤ m1.pos then
        player.list_marble.flatMap fun m2 =>
          if 0 ≤ m2.pos ∧ m1 ≠ m2 then
            [⟨card, some m1.pos, some m2.pos, none⟩,
             ⟨card, some m2.pos, some m1.pos, none⟩]
          else []
      else [])
  else swaps

/-- All actions contributed by one hand card inside `get_list_action`'s
`for card in active_player.list_card` loop. -/
def cardActions (s : GameState) (player : PlayerState) (card : Card) :
    List Action :=
  (if card.rank = "JKR" then
    ⟨card, some 64, some 0, none⟩ :: jokerSwaps s card
   else
    player.list_marble.flatMap (marbleMoves s player card))
  ++ (if card.rank = "J" then jackMoves s player card else [])

/-- The final dict-comprehension of `get_list_action`: keep the first
occurrence of each action (key and value coincide because `Action` equality
is exactly the four keyed fields). -/
def dedupActions (l : List Action) : List Action :=
  l.foldl (fun acc a => if a ∈ acc then acc else acc ++ [a]) []

/-- `get_list_action`: exchange actions (one per hand card, no dedup) before
the exchange phase is over, otherwise the per-card dispatch plus dedup. -/
def getListAction (s : GameState) : List Action :=
  let player := activePlayer s
  if !s.bool_card_exchanged then
    player.list_card.map fun c => ⟨c, none, none, none⟩
  else
    dedupActions (player.list_card.flatMap (cardActions s player))

/-- Remove card `c` from the active player's hand (`list.remove`; callers
guard membership). -/
def removeCardFromActive (s : GameState) (c : Card) : GameState :=
  setActive s
    { activePlayer s with list_card := (activePlayer s).list_card.erase c }

/-- Append card `c` to the hand of the player at index `j` (the exchange
partner, fetched from the already-updated player list). -/
def giveCardTo (s : GameState) (j : Nat) (c : Card) : GameState :=
  { s with list_player := (s.list_player.set j
      { s.list_player.getD j emptyPlayer with
        list_card := (s.list_player.getD j emptyPlayer).list_card ++ [c] }) }

/-- `process_card_exchange`: give the chosen card to the player two seats
away, advance the exchange turn, and close the exchange phase when the turn
returns to the round starter. -/
def processCardExchange (s : GameState) (act : Action) : GameState :=
  let s1 : GameState :=
    if act.card ∈ (activePlayer s).list_card then
      giveCardTo (removeCardFromActive s act.card)
        ((s.idx_player_active + 2) % s.cnt_player) act.card
    else s
  let s2 : GameState :=
    { s1 with idx_player_active := (s1.idx_player_active + 1) % s1.cnt_player }
  if s2.idx_player_active = s2.idx_player_started then
    { s2 with bool_card_exchanged := true }
  else s2

/-- `valid_finish_move`: only constrains marbles already at `pos >= 92`. -/
def validFinishMove (m : Marble) (move : Int) : Bool :=
  if 92 ≤ m.pos then decide (92 ≤ m.pos + move ∧ m.pos + move < 96)
  else true

/-- `finish_overtaking`: checks the active player's marbles for overtaking
inside the finish area. -/
def finishOvertaking (s : GameState) (m : Marble) (move : Int) : Bool :=
  if 92 ≤ m.pos then
    (activePlayer s).list_marble.any fun mm =>
      decide (m.pos + move > mm.pos ∧ 92 ≤ mm.pos)
  else false

/-- The capture loop of the kennel-exit branch of `apply_action`: every
marble of every player other than the active one that sits on `pt` is set
to position 72 with `is_save = false`.  `j` is the index of the list head. -/
def sendHomeList : List PlayerState → Nat → Nat → Int → List PlayerState
  | [], _, _, _ => []
  | p :: rest, j, ex, pt =>
    (if j = ex then p
     else { p with list_marble := p.list_marble.map fun m =>
              if m.pos = pt then ⟨72, false⟩ else m })
      :: sendHomeList rest (j + 1) ex pt

/-- Kennel-exit branch (`action.pos_from in (-1, 64)`): move the first
kennel marble of the active player to `pos_to` with `is_save = true`, then
run the capture loop.  `next(...)` without default raises `StopIteration`
when the player has no kennel marble. -/
def kennelMove (s : GameState) (pt : Int) : GameState × Option PyErr :=
  match (activePlayer s).list_marble.findIdx? (fun m => m.pos == -1) with
  | none => (s, some .stopIteration)
  | some i =>
    let s1 := setMarble s s.idx_player_active i ⟨pt, true⟩
    ({ s1 with list_player := sendHomeList s1.list_player 0 s1.idx_player_active pt },
     none)

/-- The state produced by the marble updates of the kennel-exit branch
when marble `i` is the active player's first kennel marble: that marble
moved to `pt` with `is_save = true`, then the capture loop over the other
players. -/
def kennelResult (s : GameState) (pt : Int) (i : Nat) : GameState :=
  { setMarble s s.idx_player_active i ⟨pt, true⟩ with
    list_player := sendHomeList
      (setMarble s s.idx_player_active i ⟨pt, true⟩).list_player 0
      s.idx_player_active pt }

/-- Normal-move branch of `apply_action`: the acting marble's `pos` is
overwritten with `pos_to` before the finish checks run (the chained
assignment `move = marble.pos = action.pos_to`), so a failing check leaves
the marble already moved; `is_save` is not touched and no capture happens. -/
def normalMove (s : GameState) (pf pt : Int) : GameState × Option PyErr :=
  match (activePlayer s).list_marble.findIdx? (fun m => m.pos == pf) with
  | none => (s, some .stopIteration)
  | some i =>
    let old := (activePlayer s).list_marble.getD i mdef
    let m1 : Marble := ⟨pt, old.is_save⟩
    let s1 := setMarble s s.idx_player_active i m1
    if validFinishMove m1 pt = false then (s1, some .valueError)
    else if finishOvertaking s1 m1 pt = true then (s1, some .valueError)
    else (setMarble s1 s.idx_player_active i ⟨pt, m1.is_save⟩, none)

/-- Remove `c` from the active player's hand and append it to the discard
pile (the shared tail of the joker, jack and normal-card branches). -/
def discardFromHand (s : GameState) (c : Card) : GameState :=
  { s with
      list_player := s.list_player.set s.idx_player_active
        { activePlayer s with list_card := (activePlayer s).list_card.erase c },
      list_card_discard := s.list_card_discard ++ [c] }

/-- First marble (player index, marble index) with `pos = pt`, scanning all
players in order — the `next(...)` in the jack branch. -/
def findMarbleAll : List PlayerState → Int → Nat → Option (Nat × Nat)
  | [], _, _ => none
  | p :: rest, pt, i =>
    match p.list_marble.findIdx? (fun m => m.pos == pt) with
    | some j => some (i, j)
    | none => findMarbleAll rest pt (i + 1)

/-- Jack branch of `apply_action`, marble part: swap the `pos` fields of
the active player's first marble at `pos_from` and the first marble
anywhere at `pos_to`, when both exist. -/
def jackSwapPart (s : GameState) (pf pt : Int) : GameState :=
  match (activePlayer s).list_marble.findIdx? (fun m => m.pos == pf),
        findMarbleAll s.list_player pt 0 with
  | some i, some (pj, j) =>
    let oldFrom := ((activePlayer s).list_marble.getD i mdef).pos
    let toM := (s.list_player.getD pj emptyPlayer).list_marble.getD j mdef
    let sA := setMarble s s.idx_player_active i
      ⟨toM.pos, ((activePlayer s).list_marble.getD i mdef).is_save⟩
    setMarble sA pj j ⟨oldFrom, toM.is_save⟩
  | _, _ => s

/-- Jack discard step: remove the jack and clear `card_active` (raising
`ValueError` when the card is not in hand, after the swap already
happened). -/
def jackBranch (s : GameState) (act : Action) : GameState × Option PyErr :=
  match act.pos_from, act.pos_to with
  | some pf, some pt =>
    let s1 := jackSwapPart s pf pt
    if act.card ∈ (activePlayer s1).list_card then
      ({ discardFromHand s1 act.card with card_active := none }, none)
    else (s1, some .valueError)
  | _, _ => (s, none)

/-- Positional part of the normal-card branch: kennel exit or normal move
as dictated by the positions, or nothing when a position is missing. -/
def moveStep (s : GameState) (act : Action) : GameState × Option PyErr :=
  if (act.pos_from = some (-1) ∨ act.pos_from = some 64) ∧ act.pos_to.isSome then
    kennelMove s (act.pos_to.getD 0)
  else
    match act.pos_from, act.pos_to with
    | some pf, some pt => normalMove s pf pt
    | _, _ => (s, none)

/-- Tail of the normal-card branch: set `card_active` to the played card,
remove it from the hand and discard it (the card was checked to be in
hand by the branch condition). -/
def normalBranch (s : GameState) (act : Action) : GameState × Option PyErr :=
  match moveStep s act with
  | (s1, some e) => (s1, some e)
  | (s1, none) =>
    (discardFromHand { s1 with card_active := some act.card } act.card, none)

/-- The card-dispatch part of `apply_action` (joker swap, jack, normal card,
or nothing when no branch matches).  In the joker branch `card_active` is
assigned before the `remove`, so a missing joker leaves it set. -/
def mainBranch (s : GameState) (act : Action) : GameState × Option PyErr :=
  let player := activePlayer s
  if act.card.rank = "JKR" ∧ act.card_swap.isSome then
    let s1 := { s with card_active := act.card_swap }
    if act.card ∈ player.list_card then (discardFromHand s1 act.card, none)
    else (s1, some .valueError)
  else if act.card.rank = "J" ∧ act.pos_from.isSome ∧ act.pos_to.isSome then
    jackBranch s act
  else if act.card ∈ player.list_card then
    normalBranch s act
  else (s, none)

/-- `check_for_game_winner`: a team wins when all eight of its marbles sit
in `range(92, 96)` — the literal range in the source, not the per-player
`FINISH_POSITIONS`. -/
def checkForGameWinner (s : GameState) : GameState :=
  let inRange : Marble → Bool := fun m => decide (92 ≤ m.pos ∧ m.pos < 96)
  let team1 := [s.list_player.getD 0 emptyPlayer, s.list_player.getD 2 emptyPlayer]
  let team2 := [s.list_player.getD 1 emptyPlayer, s.list_player.getD 3 emptyPlayer]
  if team1.all fun p => p.list_marble.all inRange then
    { s with phase := .FINISHED }
  else if team2.all fun p => p.list_marble.all inRange then
    { s with phase := .FINISHED }
  else s

/-- `Dog.FINISH_POSITIONS` (defined in the source but never consulted by
`check_for_game_winner`). -/
def FINISH_POSITIONS : Nat → List Int
  | 0 => [68, 69, 70, 71]
  | 1 => [76, 77, 78, 79]
  | 2 => [84, 85, 86, 87]
  | 3 => [92, 93, 94, 95]
  | _ => []

/-- `ensure_player1_marble_at_12`: if player 0 has no marble at square 12,
move their first kennel marble (if any) to square 12. -/
def ensurePlayer1At12 (s : GameState) : GameState :=
  let p := s.list_player.getD 0 emptyPlayer
  if p.list_marble.any (fun m => m.pos == 12) then s
  else
    match p.list_marble.findIdx? (fun m => m.pos == -1) with
    | none => s
    | some i =>
      let old := p.list_marble.getD i mdef
      setMarble s 0 i ⟨12, old.is_save⟩

/-- `finalize_turn`: clear `card_active`, advance the active player; on a
round wrap it increments the counter and then calls the nonexistent method
`distribute_round_cards`, raising `AttributeError`. -/
def finalizeTurn (s : GameState) : GameState × Option PyErr :=
  let s1 := { s with card_active := none,
                     idx_player_active := (s.idx_player_active + 1) % s.cnt_player }
  if s1.idx_player_active = s1.idx_player_started then
    ({ s1 with cnt_round := s1.cnt_round + 1 }, some .attributeError)
  else (s1, none)

/-- `calculate_card`: cards per round. -/
def calculateCard (cnt_round : Int) : Int := max (6 - (cnt_round - 1) % 5) 2

/-- One player's pass of the `give_cards` dealing loop:
`[draw.pop() for _ in range(num)]` takes `num` cards from the back of the
draw pile, most recently popped first. -/
def givePop : List PlayerState → List Card → Nat → List PlayerState × List Card
  | [], draw, _ => ([], draw)
  | p :: rest, draw, num =>
    let hand := (draw.drop (draw.length - num)).reverse
    let draw' := draw.take (draw.length - num)
    let (rest', draw'') := givePop rest draw' num
    ({ p with list_card := hand } :: rest', draw'')

/-- `give_cards` (used at round boundaries after a fold): replenish the
draw pile from the discard pile if short (with shuffle `sh`), error out if
still short, else replace every hand with freshly popped cards. -/
def giveCards (sh : List Card → List Card) (s : GameState) (num : Int) :
    GameState × Option PyErr :=
  let needed := num * (s.cnt_player : Int)
  let s1 :=
    if (s.list_card_draw.length : Int) < needed then
      { s with list_card_draw := sh (s.list_card_draw ++ s.list_card_discard),
               list_card_discard := [] }
    else s
  if (s1.list_card_draw.length : Int) < needed then (s1, some .valueError)
  else
    let (players', draw') := givePop s1.list_player s1.list_card_draw num.toNat
    ({ s1 with list_player := players', list_card_draw := draw' }, none)

/-- `impossible_action`: advance the player; on a round wrap, bump the
round, re-deal with `give_cards`, and advance once more. -/
def impossibleAction (sh : List Card → List Card) (s : GameState) :
    GameState × Option PyErr :=
  let s1 := { s with idx_player_active := (s.idx_player_active + 1) % s.cnt_player }
  if s1.idx_player_active = s1.idx_player_started then
    let s2 := { s1 with cnt_round := s1.cnt_round + 1 }
    match giveCards sh s2 (calculateCard s2.cnt_round) with
    | (s3, some e) => (s3, some e)
    | (s3, none) =>
      ({ s3 with idx_player_active := (s3.idx_player_active + 1) % s3.cnt_player },
       none)
  else (s1, none)

/-- One player's pass of the `deal_cards` dealing loop:
`player.list_card = draw[:num]; draw = draw[num:]` (front slices). -/
def dealSlice : List PlayerState → List Card → Nat → List PlayerState × List Card
  | [], draw, _ => ([], draw)
  | p :: rest, draw, num =>
    let (rest', draw') := dealSlice rest (draw.drop num) num
    ({ p with list_card := draw.take num } :: rest', draw')

/-- `deal_cards` (used by `__init__` and `start_new_round`). -/
def dealCards (sh : List Card → List Card) (s : GameState) :
    GameState × Option PyErr :=
  let num := max (6 - (s.cnt_round - 1) % 5) 2
  let needed := num * (s.cnt_player : Int)
  let s1 :=
    if (s.list_card_draw.length : Int) < needed then
      { s with list_card_draw := sh (s.list_card_draw ++ s.list_card_discard),
               list_card_discard := [] }
    else s
  if (s1.list_card_draw.length : Int) < needed then (s1, some .valueError)
  else
    let (players', draw') := dealSlice s1.list_player s1.list_card_draw num.toNat
    ({ s1 with list_player := players', list_card_draw := draw' }, none)

/-- `apply_action`. `sh` stands in for `random.shuffle` on the re-deal
path; the returned error tag records an uncaught Python exception, with the
state as mutated up to the raise point. -/
def applyAction (sh : List Card → List Card) (s : GameState)
    (action : Option Action) : GameState × Option PyErr :=
  match action with
  | none =>
    let p := activePlayer s
    impossibleAction sh (setActive s { p with list_card := [] })
  | some act =>
    if s.bool_card_exchanged = false then (processCardExchange s act, none)
    else
      match mainBranch s act with
      | (s1, some e) => (s1, some e)
      | (s1, none) =>
        let s2 := checkForGameWinner s1
        let s3 := if s2.idx_player_active = 0 then ensurePlayer1At12 s2 else s2
        finalizeTurn s3

/-- `get_player_view`: the source returns the full state unmasked. -/
def getPlayerView (_idx : Nat) (s : GameState) : GameState := s

/-- `Dog.__init__` with starting player `istart` (drawn randomly in the
source): round 1, all marbles in the kennel, the unshuffled deck, then
`deal_cards` (which never needs a reshuffle here since 110 ≥ 24). -/
def initDog (istart : Nat) : GameState :=
  let s0 : GameState :=
    { cnt_player := 4, phase := .RUNNING, cnt_round := 1,
      bool_card_exchanged := false,
      idx_player_started := istart, idx_player_active := istart,
      list_player :=
        [⟨"Player 1", [], List.replicate 4 ⟨-1, false⟩⟩,
         ⟨"Player 2", [], List.replicate 4 ⟨-1, false⟩⟩,
         ⟨"Player 3", [], List.replicate 4 ⟨-1, false⟩⟩,
         ⟨"Player 4", [], List.replicate 4 ⟨-1, false⟩⟩],
      list_card_draw := LIST_CARD, list_card_discard := [],
      card_active := none }
  let s1 := (dealCards id s0).1
  { s1 with phase := .RUNNING }

/-- The list of all hands. -/
def handsOf (s : GameState) : List (List Card) :=
  s.list_player.map fun p => p.list_card

/-- Total number of cards across the draw pile, the discard pile and all
hands. -/
def cardTotal (s : GameState) : Nat :=
  s.list_card_draw.length + s.list_card_discard.length +
    (s.list_player.map fun p => p.list_card.length).sum

/-- `t` differs from `s` only in card-irrelevant data: piles, hands, the
active index and the player count are untouched. -/
def CardsUntouched (s t : GameState) : Prop :=
  t.list_card_draw = s.list_card_draw ∧
  t.list_card_discard = s.list_card_discard ∧
  handsOf t = handsOf s ∧
  t.idx_player_active = s.idx_player_active ∧
  t.list_player.length = s.list_player.length

/-- Well-formedness: the shape `set_state` is expected to maintain (four
players, indices in range). -/
def WF (s : GameState) : Prop :=
  s.cnt_player = 4 ∧ s.list_player.length = 4 ∧
    s.idx_player_active < 4 ∧ s.idx_player_started < 4

instance (s : GameState) : Decidable (WF s) := by
  unfold WF; infer_instance

/-- Shorthand for building four-player fixture states (as `set_state` does
in the tests). -/
def mkState (round : Int) (exch : Bool) (istart iact : Nat)
    (players : List PlayerState) (draw discard : List Card)
    (ca : Option Card) : GameState :=
  { cnt_player := 4, phase := .RUNNING, cnt_round := round,
    bool_card_exchanged := exch, idx_player_started := istart,
    idx_player_active := iact, list_player := players,
    list_card_draw := draw, list_card_discard := discard,
    card_active := ca }

/-- A player with all four marbles in the kennel and no cards. -/
def idlePlayer (nm : String) : PlayerState :=
  ⟨nm, [], [⟨-1, false⟩, ⟨-1, false⟩, ⟨-1, false⟩, ⟨-1, false⟩]⟩

/-- Fixture: a 7 was played and is the active card, the active player still
holds cards, and a marble has been moved 3 steps. -/
def sevenState : GameState :=
  mkState 2 true 2 0
    [⟨"Player 1", [⟨"♠", "7"⟩, ⟨"♥", "2"⟩],
        [⟨3, true⟩, ⟨-1, false⟩, ⟨-1, false⟩, ⟨-1, false⟩]⟩,
     idlePlayer "Player 2", idlePlayer "Player 3", idlePlayer "Player 4"]
    [] [] (some ⟨"♠", "7"⟩)

/-- Fixture: every marble of team 1 (players 0 and 2) sits in its owner's
finish lane per `FINISH_POSITIONS`. -/
def lanesDoneState : GameState :=
  mkState 5 true 1 1
    [⟨"Player 1", [], [⟨68, false⟩, ⟨69, false⟩, ⟨70, false⟩, ⟨71, false⟩]⟩,
     idlePlayer "Player 2",
     ⟨"Player 3", [], [⟨84, false⟩, ⟨85, false⟩, ⟨86, false⟩, ⟨87, false⟩]⟩,
     idlePlayer "Player 4"]
    [] [] none

/-- Fixture: every marble of team 1 sits in `range(92, 96)` — player 3's
finish lane — and none in its owner's own lane. -/
def range92State : GameState :=
  mkState 5 true 1 1
    [⟨"Player 1", [], [⟨92, false⟩, ⟨93, false⟩, ⟨94, false⟩, ⟨95, false⟩]⟩,
     idlePlayer "Player 2",
     ⟨"Player 3", [], [⟨92, false⟩, ⟨93, false⟩, ⟨94, false⟩, ⟨95, false⟩]⟩,
     idlePlayer "Player 4"]
    [] [] none

/-- Fixture: exchange pre-phase with two equal cards in the active hand. -/
def dupHandState : GameState :=
  mkState 1 false 0 0
    [⟨"Player 1", [⟨"♠", "2"⟩, ⟨"♠", "2"⟩],
        [⟨-1, false⟩, ⟨-1, false⟩, ⟨-1, false⟩, ⟨-1, false⟩]⟩,
     idlePlayer "Player 2", idlePlayer "Player 3", idlePlayer "Player 4"]
    [] [] none

/-- Fixture: the active player holds a joker, no own marble has left the
kennel, and `cnt_round = 1`. -/
def jokerKennelState : GameState :=
  mkState 1 true 0 0
    [⟨"Player 1", [⟨"", "JKR"⟩],
        [⟨-1, false⟩, ⟨-1, false⟩, ⟨-1, false⟩, ⟨-1, false⟩]⟩,
     idlePlayer "Player 2", idlePlayer "Player 3", idlePlayer "Player 4"]
    [] [] none

/-- Fixture: an opponent (player 1) holds a card that a masked view for
player 0 would have to hide. -/
def viewState : GameState :=
  mkState 1 true 1 1
    [idlePlayer "Player 1",
     ⟨"Player 2", [⟨"♠", "A"⟩],
        [⟨-1, false⟩, ⟨-1, false⟩, ⟨-1, false⟩, ⟨-1, false⟩]⟩,
     idlePlayer "Player 3", idlePlayer "Player 4"]
    [] [] none

/-- Fixture for the claimed capture postcondition: the active player 0 has
a marble on square 10 and holds `2♣`; an opponent marble of player 1 sits
on the destination square 12. -/
def captureState : GameState :=
  mkState 2 true 2 0
    [⟨"Player 1", [⟨"♣", "2"⟩],
        [⟨10, false⟩, ⟨-1, false⟩, ⟨-1, false⟩, ⟨-1, false⟩]⟩,
     ⟨"Player 2", [], [⟨12, false⟩, ⟨-1, false⟩, ⟨-1, false⟩, ⟨-1, false⟩]⟩,
     idlePlayer "Player 3", idlePlayer "Player 4"]
    [] [] none

/-- The action applied on `captureState`. -/
def captureAct : Action := ⟨⟨"♣", "2"⟩, some 10, some 12, none⟩

/-- Fixture for the path-blocking witness: a save marble sits on square 11
between the marble's square 10 and the destination 12. -/
def blockerState : GameState :=
  mkState 2 true 2 0
    [⟨"Player 1", [⟨"♠", "2"⟩], [⟨10, false⟩]⟩,
     ⟨"Player 2", [], [⟨11, true⟩]⟩,
     idlePlayer "Player 3", idlePlayer "Player 4"]
    [] [] none

/-- The blocked numbered-card move on `blockerState`. -/
def blockedAct : Action := ⟨⟨"♠", "2"⟩, some 10, some 12, none⟩

/-- A joker substitution action declaring `2♠`. -/
def jswapW : Action := ⟨⟨"", "JKR"⟩, none, none, some ⟨"♠", "2"⟩⟩

/-- Fixture for the normal-move postcondition witness: player 1 is active
with a marble on square 20 and plays `6♥` to square 26. -/
def c4wState : GameState :=
  mkState 3 true 3 1
    [idlePlayer "Player 1",
     ⟨"Player 2", [⟨"♥", "6"⟩],
        [⟨20, true⟩, ⟨-1, false⟩, ⟨-1, false⟩, ⟨-1, false⟩]⟩,
     idlePlayer "Player 3", idlePlayer "Player 4"]
    [] [] none

/-- The move applied on `c4wState`. -/
def c4wAct : Action := ⟨⟨"♥", "6"⟩, some 20, some 26, none⟩

/-- Fixture for the finish-guard error witness: player 1 plays `3♠` from
square 90 to square 93 (destination in the `pos >= 92` guard zone). -/
def c4errState : GameState :=
  mkState 3 true 3 1
    [idlePlayer "Player 1",
     ⟨"Player 2", [⟨"♠", "3"⟩],
        [⟨90, false⟩, ⟨-1, false⟩, ⟨-1, false⟩, ⟨-1, false⟩]⟩,
     idlePlayer "Player 3", idlePlayer "Player 4"]
    [] [] none

/-- The move applied on `c4errState`. -/
def c4errAct : Action := ⟨⟨"♠", "3"⟩, some 90, some 93, none⟩

/-- Fixture for the kennel-exit witness: player 1 plays `A♠` out of the
kennel onto square 0, where a marble of player 2 sits. -/
def c4kState : GameState :=
  mkState 3 true 3 1
    [idlePlayer "Player 1",
     ⟨"Player 2", [⟨"♠", "A"⟩],
        [⟨-1, false⟩, ⟨-1, false⟩, ⟨-1, false⟩, ⟨-1, false⟩]⟩,
     ⟨"Player 3", [], [⟨0, true⟩, ⟨-1, false⟩, ⟨-1, false⟩, ⟨-1, false⟩]⟩,
     idlePlayer "Player 4"]
    [] [] none

/-- The move applied on `c4kState`. -/
def c4kAct : Action := ⟨⟨"♠", "A"⟩, some 64, some 0, none⟩

/-- Fixture for the player-0 bookkeeping witness: player 0 plays `5♥` from
square 0, has no marble on square 12 and three marbles in the kennel. -/
def c10State : GameState :=
  mkState 2 true 2 0
    [⟨"Player 1", [⟨"♥", "5"⟩],
        [⟨0, false⟩, ⟨-1, false⟩, ⟨-1, false⟩, ⟨-1, false⟩]⟩,
     idlePlayer "Player 2", idlePlayer "Player 3", idlePlayer "Player 4"]
    [] [] none

/-- The move applied on `c10State`. -/
def c10Act : Action := ⟨⟨"♥", "5"⟩, some 0, some 5, none⟩

/-! ## Theorems -/

/-! ### List helpers -/

lemma getD_map {α β : Type} (f : α → β) (l : List α) (i : Nat) (d : α) :
    (l.map f).getD i (f d) = f (l.getD i d) := by
  induction l generalizing i with
  | nil => simp
  | cons x t ih => cases i <;> simp [ih]

lemma map_set' {α β : Type} (f : α → β) (l : List α) (i : Nat) (a : α) :
    (l.set i a).map f = (l.map f).set i (f a) := by
  induction l generalizing i with
  | nil => simp
  | cons x t ih => cases i <;> simp [ih]

lemma map_set_self {α β : Type} (f : α → β) (l : List α) (i : Nat) (a d : α)
    (h : f a = f (l.getD i d)) : (l.set i a).map f = l.map f := by
  induction l generalizing i with
  | nil => simp
  | cons x t ih =>
    cases i with
    | zero =>
      rw [List.getD_cons_zero] at h
      simp [h]
    | succ n =>
      rw [List.getD_cons_succ] at h
      simp [ih n h]

lemma sum_set_nat (L : List Nat) (i : Nat) (x : Nat) (hi : i < L.length) :
    (L.set i x).sum + L.getD i 0 = L.sum + x := by
  induction L generalizing i with
  | nil => simp at hi
  | cons y t ih =>
    cases i with
    | zero => simp [List.sum_cons]; omega
    | succ n =>
      have h2 := ih n (by simpa using hi)
      simp only [List.set_cons_succ, List.sum_cons, List.getD_cons_succ]
      omega

/-! ### Card-conservation helpers -/

lemma sumLen_eq_of_handsOf_eq {s t : GameState} (h : handsOf t = handsOf s) :
    (t.list_player.map fun p => p.list_card.length).sum
      = (s.list_player.map fun p => p.list_card.length).sum := by
  have h2 := congrArg (fun L => (L.map List.length).sum) h
  simpa [handsOf, List.map_map, Function.comp] using h2

lemma cardTotal_of_untouched {s t : GameState} (h : CardsUntouched s t) :
    cardTotal t = cardTotal s := by
  obtain ⟨h1, h2, h3, _, _⟩ := h
  unfold cardTotal
  rw [h1, h2, sumLen_eq_of_handsOf_eq h3]

lemma activeCards_of_untouched {s t : GameState} (h : CardsUntouched s t) :
    (activePlayer t).list_card = (activePlayer s).list_card := by
  obtain ⟨_, _, h3, h4, _⟩ := h
  have ht := getD_map (fun p => p.list_card) t.list_player t.idx_player_active
    emptyPlayer
  have hs := getD_map (fun p => p.list_card) s.list_player s.idx_player_active
    emptyPlayer
  unfold activePlayer
  rw [← ht, ← hs]
  unfold handsOf at h3
  rw [h3, h4]

lemma untouched_refl (s : GameState) : CardsUntouched s s :=
  ⟨rfl, rfl, rfl, rfl, rfl⟩

lemma untouched_trans {s t u : GameState} (h1 : CardsUntouched s t)
    (h2 : CardsUntouched t u) : CardsUntouched s u := by
  obtain ⟨a1, b1, c1, d1, e1⟩ := h1
  obtain ⟨a2, b2, c2, d2, e2⟩ := h2
  exact ⟨a2.trans a1, b2.trans b1, c2.trans c1, d2.trans d1, e2.trans e1⟩

lemma untouched_setMarble (s : GameState) (pi mi : Nat) (m : Marble) :
    CardsUntouched s (setMarble s pi mi m) := by
  refine ⟨rfl, rfl, ?_, rfl, by simp [setMarble]⟩
  unfold handsOf setMarble
  exact map_set_self _ _ _ _ emptyPlayer rfl

lemma map_cards_sendHomeList (l : List PlayerState) (j ex : Nat) (pt : Int) :
    (sendHomeList l j ex pt).map (fun p => p.list_card)
      = l.map fun p => p.list_card := by
  induction l generalizing j with
  | nil => rfl
  | cons p t ih =>
    simp only [sendHomeList, List.map_cons, ih]
    congr 1
    split <;> rfl

lemma length_sendHomeList (l : List PlayerState) (j ex : Nat) (pt : Int) :
    (sendHomeList l j ex pt).length = l.length := by
  induction l generalizing j with
  | nil => rfl
  | cons p t ih => simp [sendHomeList, ih]

lemma untouched_kennelMove (s : GameState) (pt : Int) :
    CardsUntouched s (kennelMove s pt).1 := by
  unfold kennelMove
  cases hfi : (activePlayer s).list_marble.findIdx? (fun m => m.pos == -1) with
  | none => exact untouched_refl s
  | some i =>
    refine untouched_trans (untouched_setMarble s s.idx_player_active i ⟨pt, true⟩) ?_
    refine ⟨rfl, rfl, ?_, rfl, ?_⟩
    · unfold handsOf
      exact map_cards_sendHomeList _ _ _ _
    · exact length_sendHomeList _ _ _ _

lemma untouched_normalMove (s : GameState) (pf pt : Int) :
    CardsUntouched s (normalMove s pf pt).1 := by
  unfold normalMove
  cases hfi : (activePlayer s).list_marble.findIdx? (fun m => m.pos == pf) with
  | none => exact untouched_refl s
  | some i =>
    simp only []
    split
    · exact untouched_setMarble _ _ _ _
    · split
      · exact untouched_setMarble _ _ _ _
      · exact untouched_trans (untouched_setMarble _ _ _ _)
          (untouched_setMarble _ _ _ _)

lemma cardTotal_discardFromHand (s : GameState) (c : Card)
    (hi : s.idx_player_active < s.list_player.length)
    (hc : c ∈ (activePlayer s).list_card) :
    cardTotal (discardFromHand s c) = cardTotal s := by
  unfold cardTotal discardFromHand
  simp only [List.length_append, List.length_cons, List.length_nil]
  have hmap := map_set' (fun p => p.list_card.length) s.list_player
    s.idx_player_active
    { activePlayer s with list_card := (activePlayer s).list_card.erase c }
  rw [hmap]
  dsimp only
  have hgd : (s.list_player.map fun p => p.list_card.length).getD
      s.idx_player_active 0 = (activePlayer s).list_card.length := by
    have h0 := getD_map (fun p => p.list_card.length) s.list_player
      s.idx_player_active emptyPlayer
    simpa [activePlayer, emptyPlayer] using h0
  have hsum := sum_set_nat (s.list_player.map fun p => p.list_card.length)
    s.idx_player_active ((activePlayer s).list_card.erase c).length
    (by simpa using hi)
  rw [hgd] at hsum
  have hel : ((activePlayer s).list_card.erase c).length
      = (activePlayer s).list_card.length - 1 := List.length_erase_of_mem hc
  have hpos : 0 < (activePlayer s).list_card.length := List.length_pos_of_mem hc
  omega

lemma cardTotal_checkForGameWinner (s : GameState) :
    cardTotal (checkForGameWinner s) = cardTotal s := by
  unfold checkForGameWinner
  dsimp only
  split
  · rfl
  · split <;> rfl

lemma untouched_ensurePlayer1At12 (s : GameState) :
    CardsUntouched s (ensurePlayer1At12 s) := by
  unfold ensurePlayer1At12
  dsimp only
  split
  · exact untouched_refl s
  · split
    · exact untouched_refl s
    · exact untouched_setMarble _ _ _ _

lemma cardTotal_finalizeTurn (s : GameState) :
    cardTotal (finalizeTurn s).1 = cardTotal s := by
  unfold finalizeTurn
  dsimp only
  split <;> rfl

lemma sum_set_len (l : List PlayerState) (i : Nat) (p : PlayerState)
    (hi : i < l.length) :
    ((l.set i p).map fun q => q.list_card.length).sum
        + (l.getD i emptyPlayer).list_card.length
      = (l.map fun q => q.list_card.length).sum + p.list_card.length := by
  have hmap := map_set' (fun q => q.list_card.length) l i p
  rw [hmap]
  have hgd : (l.map fun q => q.list_card.length).getD i 0
      = (l.getD i emptyPlayer).list_card.length :=
    getD_map (fun q => q.list_card.length) l i emptyPlayer
  rw [← hgd]
  exact sum_set_nat _ i _ (by simpa using hi)

lemma cardTotal_removeCardFromActive (s : GameState) (c : Card)
    (hi : s.idx_player_active < s.list_player.length)
    (hc : c ∈ (activePlayer s).list_card) :
    cardTotal (removeCardFromActive s c) + 1 = cardTotal s := by
  unfold cardTotal removeCardFromActive setActive
  dsimp only
  have e := sum_set_len s.list_player s.idx_player_active
    { activePlayer s with
      list_card := (activePlayer s).list_card.erase c } hi
  dsimp only at e
  have hel : ((activePlayer s).list_card.erase c).length
      = (activePlayer s).list_card.length - 1 := List.length_erase_of_mem hc
  have hpos : 0 < (activePlayer s).list_card.length := List.length_pos_of_mem hc
  have hact : s.list_player.getD s.idx_player_active emptyPlayer
      = activePlayer s := rfl
  rw [hact] at e
  omega

lemma cardTotal_giveCardTo (s : GameState) (j : Nat) (c : Card)
    (hj : j < s.list_player.length) :
    cardTotal (giveCardTo s j c) = cardTotal s + 1 := by
  unfold cardTotal giveCardTo
  dsimp only
  have e := sum_set_len s.list_player j
    { s.list_player.getD j emptyPlayer with
      list_card := (s.list_player.getD j emptyPlayer).list_card ++ [c] } hj
  dsimp only at e
  rw [List.length_append, List.length_cons, List.length_nil] at e
  omega

lemma length_removeCardFromActive (s : GameState) (c : Card) :
    (removeCardFromActive s c).list_player.length = s.list_player.length := by
  simp [removeCardFromActive, setActive]

lemma cardTotal_processCardExchange (s : GameState) (act : Action)
    (hl4 : s.list_player.length = 4) (hia : s.idx_player_active < 4)
    (hc4 : s.cnt_player = 4) :
    cardTotal (processCardExchange s act) = cardTotal s := by
  unfold processCardExchange
  dsimp only
  by_cases hmem : act.card ∈ (activePlayer s).list_card
  · rw [if_pos hmem]
    have hj : (s.idx_player_active + 2) % s.cnt_player
        < (removeCardFromActive s act.card).list_player.length := by
      rw [length_removeCardFromActive, hl4, hc4]
      exact Nat.mod_lt _ (by norm_num)
    have h1 := cardTotal_removeCardFromActive s act.card (by omega) hmem
    have h2 := cardTotal_giveCardTo (removeCardFromActive s act.card)
      ((s.idx_player_active + 2) % s.cnt_player) act.card hj
    split
    · show cardTotal (giveCardTo (removeCardFromActive s act.card)
        ((s.idx_player_active + 2) % s.cnt_player) act.card) = cardTotal s
      omega
    · show cardTotal (giveCardTo (removeCardFromActive s act.card)
        ((s.idx_player_active + 2) % s.cnt_player) act.card) = cardTotal s
      omega
  · rw [if_neg hmem]
    split <;> rfl

lemma untouched_jackSwapPart (s : GameState) (pf pt : Int) :
    CardsUntouched s (jackSwapPart s pf pt) := by
  unfold jackSwapPart
  split
  · exact untouched_trans (untouched_setMarble _ _ _ _)
      (untouched_setMarble _ _ _ _)
  · exact untouched_refl s

lemma untouched_moveStep (s : GameState) (act : Action) :
    CardsUntouched s (moveStep s act).1 := by
  unfold moveStep
  split
  · exact untouched_kennelMove _ _
  · split
    · exact untouched_normalMove _ _ _
    · exact untouched_refl s

lemma cardTotal_discard_untouched (s s1 : GameState) (c : Card) (ca : Option Card)
    (hu : CardsUntouched s s1)
    (hi : s.idx_player_active < s.list_player.length)
    (hc : c ∈ (activePlayer s).list_card) :
    cardTotal (discardFromHand { s1 with card_active := ca } c) = cardTotal s := by
  have hu1 : CardsUntouched s { s1 with card_active := ca } := hu
  have hcards := activeCards_of_untouched hu1
  have hc1 : c ∈ (activePlayer { s1 with card_active := ca }).list_card := by
    rw [hcards]; exact hc
  have hi1 : ({ s1 with card_active := ca } : GameState).idx_player_active
      < ({ s1 with card_active := ca } : GameState).list_player.length := by
    obtain ⟨-, -, -, h4, h5⟩ := hu1
    rw [h4, h5]; exact hi
  rw [cardTotal_discardFromHand _ _ hi1 hc1]
  exact cardTotal_of_untouched hu1

lemma cardTotal_jackBranch (s : GameState) (act : Action)
    (hi : s.idx_player_active < s.list_player.length) :
    cardTotal (jackBranch s act).1 = cardTotal s := by
  unfold jackBranch
  cases act.pos_from with
  | none => rfl
  | some pf =>
    cases act.pos_to with
    | none => rfl
    | some pt =>
      dsimp only
      have hu := untouched_jackSwapPart s pf pt
      split
      case isTrue hmem =>
        dsimp only
        have hcards := activeCards_of_untouched hu
        rw [hcards] at hmem
        exact cardTotal_discard_untouched s _ act.card none hu hi hmem
      case isFalse hmem =>
        exact cardTotal_of_untouched hu

lemma cardTotal_normalBranch (s : GameState) (act : Action)
    (hi : s.idx_player_active < s.list_player.length)
    (hc : act.card ∈ (activePlayer s).list_card) :
    cardTotal (normalBranch s act).1 = cardTotal s := by
  unfold normalBranch
  rcases hms : moveStep s act with ⟨s1, e⟩
  have hu : CardsUntouched s s1 := by
    have h := untouched_moveStep s act
    rw [hms] at h; exact h
  cases e with
  | some err =>
    dsimp only
    exact cardTotal_of_untouched hu
  | none =>
    dsimp only
    exact cardTotal_discard_untouched s s1 act.card (some act.card) hu hi hc

lemma cardTotal_mainBranch (s : GameState) (act : Action)
    (hi : s.idx_player_active < s.list_player.length) :
    cardTotal (mainBranch s act).1 = cardTotal s := by
  unfold mainBranch
  dsimp only
  split
  · split
    case isTrue hmem =>
      dsimp only
      have hu : CardsUntouched s ({ s with card_active := act.card_swap } : GameState) :=
        untouched_refl s
      have h := cardTotal_discard_untouched s s act.card act.card_swap
        (untouched_refl s) hi hmem
      exact h
    case isFalse hmem => rfl
  · split
    · exact cardTotal_jackBranch s act hi
    · split
      case isTrue hmem => exact cardTotal_normalBranch s act hi hmem
      case isFalse hmem => rfl

lemma getD_set_self {α : Type} (l : List α) (i : Nat) (a d : α)
    (h : i < l.length) : (l.set i a).getD i d = a := by
  induction l generalizing i with
  | nil => simp at h
  | cons x t ih =>
    cases i with
    | zero => rfl
    | succ n =>
      simp only [List.set_cons_succ, List.getD_cons_succ]
      exact ih n (by simpa using h)

lemma getD_set_ne {α : Type} (l : List α) (i j : Nat) (a d : α)
    (h : j ≠ i) : (l.set i a).getD j d = l.getD j d := by
  induction l generalizing i j with
  | nil => rfl
  | cons x t ih =>
    cases i with
    | zero =>
      cases j with
      | zero => exact absurd rfl h
      | succ m => rfl
    | succ n =>
      cases j with
      | zero => rfl
      | succ m =>
        simp only [List.set_cons_succ, List.getD_cons_succ]
        exact ih n m (by omega)

lemma mem_set_self {α : Type} (l : List α) (k : Nat) (a : α)
    (h : k < l.length) : a ∈ l.set k a := by
  induction l generalizing k with
  | nil => simp at h
  | cons x t ih =>
    cases k with
    | zero => exact List.mem_cons_self _ _
    | succ n => exact List.mem_cons_of_mem _ (ih n (by simpa using h))

lemma setMarble_setMarble (s : GameState) (pi mi : Nat) (m m' : Marble)
    (hpi : pi < s.list_player.length) :
    setMarble (setMarble s pi mi m) pi mi m' = setMarble s pi mi m' := by
  unfold setMarble
  dsimp only
  rw [getD_set_self _ _ _ _ hpi]
  dsimp only
  rw [List.set_set, List.set_set]

lemma checkForGameWinner_phase (s : GameState) :
    ∃ ph, checkForGameWinner s = { s with phase := ph } := by
  unfold checkForGameWinner
  dsimp only
  split
  · exact ⟨_, rfl⟩
  · split
    · exact ⟨_, rfl⟩
    · exact ⟨s.phase, rfl⟩

lemma finalizeTurn_fields (s : GameState) :
    (finalizeTurn s).1.list_player = s.list_player ∧
    (finalizeTurn s).1.list_card_draw = s.list_card_draw ∧
    (finalizeTurn s).1.list_card_discard = s.list_card_discard ∧
    (finalizeTurn s).1.card_active = none ∧
    (finalizeTurn s).1.idx_player_active
      = (s.idx_player_active + 1) % s.cnt_player := by
  unfold finalizeTurn
  dsimp only
  split <;> exact ⟨rfl, rfl, rfl, rfl, rfl⟩

lemma idx_mainBranch (s : GameState) (act : Action) :
    (mainBranch s act).1.idx_player_active = s.idx_player_active := by
  unfold mainBranch
  dsimp only
  split
  · split <;> rfl
  · split
    · unfold jackBranch
      cases act.pos_from with
      | none => rfl
      | some pf =>
        cases act.pos_to with
        | none => rfl
        | some pt =>
          dsimp only
          have hu := untouched_jackSwapPart s pf pt
          obtain ⟨-, -, -, h4, -⟩ := hu
          split
          · exact h4
          · exact h4
    · split
      · unfold normalBranch
        rcases hms : moveStep s act with ⟨s1, e⟩
        have hu := untouched_moveStep s act
        rw [hms] at hu
        obtain ⟨-, -, -, h4, -⟩ := hu
        cases e with
        | some err => exact h4
        | none => exact h4
      · rfl

lemma length_mainBranch (s : GameState) (act : Action) :
    (mainBranch s act).1.list_player.length = s.list_player.length := by
  unfold mainBranch
  dsimp only
  split
  · split
    · simp [discardFromHand]
    · rfl
  · split
    · unfold jackBranch
      cases act.pos_from with
      | none => rfl
      | some pf =>
        cases act.pos_to with
        | none => rfl
        | some pt =>
          dsimp only
          have hu := untouched_jackSwapPart s pf pt
          obtain ⟨-, -, -, -, h5⟩ := hu
          split
          · simpa [discardFromHand] using h5
          · exact h5
    · split
      · unfold normalBranch
        rcases hms : moveStep s act with ⟨s1, e⟩
        have hu := untouched_moveStep s act
        rw [hms] at hu
        obtain ⟨-, -, -, -, h5⟩ := hu
        cases e with
        | some err => exact h5
        | none => simpa [discardFromHand] using h5
      · rfl

lemma moveStep_normal (s : GameState) (act : Action) (a b : Int)
    (hpf : act.pos_from = some a) (hpt : act.pos_to = some b)
    (hna1 : a ≠ -1) (hna2 : a ≠ 64) :
    moveStep s act = normalMove s a b := by
  unfold moveStep
  rw [hpf, hpt]
  rw [if_neg]
  rintro ⟨h1 | h1, -⟩
  · injection h1 with h2
    exact hna1 h2
  · injection h1 with h2
    exact hna2 h2

lemma normalMove_ok (s : GameState) (a b : Int) (i : Nat)
    (hi : s.idx_player_active < s.list_player.length)
    (hfind : (activePlayer s).list_marble.findIdx? (fun m => m.pos == a)
      = some i)
    (hb : b < 92) :
    normalMove s a b =
      (setMarble s s.idx_player_active i
        ⟨b, ((activePlayer s).list_marble.getD i mdef).is_save⟩, none) := by
  unfold normalMove
  rw [hfind]
  dsimp only
  have hvf : validFinishMove
      ⟨b, ((activePlayer s).list_marble.getD i mdef).is_save⟩ b = true := by
    unfold validFinishMove
    dsimp only
    rw [if_neg (by omega)]
  have hfo : finishOvertaking
      (setMarble s s.idx_player_active i
        ⟨b, ((activePlayer s).list_marble.getD i mdef).is_save⟩)
      ⟨b, ((activePlayer s).list_marble.getD i mdef).is_save⟩ b = false := by
    unfold finishOvertaking
    dsimp only
    rw [if_neg (by omega)]
  rw [hvf, hfo]
  simp only [Bool.true_eq_false, Bool.false_eq_true, if_false]
  rw [setMarble_setMarble _ _ _ _ _ hi]

lemma getD_sendHomeList (l : List PlayerState) (j ex k : Nat) (pt : Int) :
    (sendHomeList l j ex pt).getD k emptyPlayer
      = if j + k = ex then l.getD k emptyPlayer
        else { l.getD k emptyPlayer with
               list_marble := (l.getD k emptyPlayer).list_marble.map
                 fun m => if m.pos = pt then ⟨72, false⟩ else m } := by
  induction l generalizing j k with
  | nil =>
    simp only [sendHomeList, List.getD_nil]
    split <;> rfl
  | cons p t ih =>
    cases k with
    | zero =>
      simp only [sendHomeList, List.getD_cons_zero, Nat.add_zero]
    | succ n =>
      simp only [sendHomeList, List.getD_cons_succ]
      rw [ih (j + 1) n]
      have hjk : j + 1 + n = j + (n + 1) := by omega
      rw [hjk]

lemma normalMove_err (s : GameState) (a b : Int) (i : Nat)
    (hfind : (activePlayer s).list_marble.findIdx? (fun m => m.pos == a)
      = some i)
    (hb : 92 ≤ b) :
    normalMove s a b =
      (setMarble s s.idx_player_active i
        ⟨b, ((activePlayer s).list_marble.getD i mdef).is_save⟩,
       some PyErr.valueError) := by
  unfold normalMove
  rw [hfind]
  dsimp only
  have hvf : validFinishMove
      ⟨b, ((activePlayer s).list_marble.getD i mdef).is_save⟩ b = false := by
    unfold validFinishMove
    dsimp only
    rw [if_pos hb]
    simp only [decide_eq_false_iff_not]
    rintro ⟨h1, h2⟩
    omega
  rw [hvf]
  rw [if_pos rfl]

lemma moveStep_kennel (s : GameState) (act : Action) (pt : Int)
    (hpf : act.pos_from = some (-1) ∨ act.pos_from = some 64)
    (hpt : act.pos_to = some pt) :
    moveStep s act = kennelMove s pt := by
  unfold moveStep
  rw [if_pos ⟨hpf, by rw [hpt]; rfl⟩]
  rw [hpt]
  rfl

lemma kennelMove_ok (s : GameState) (pt : Int) (i : Nat)
    (hfind : (activePlayer s).list_marble.findIdx? (fun m => m.pos == -1)
      = some i) :
    kennelMove s pt = (kennelResult s pt i, none) := by
  unfold kennelMove kennelResult
  rw [hfind]
  rfl

lemma mainBranch_normal (s : GameState) (act : Action)
    (hr1 : ¬(act.card.rank = "JKR" ∧ act.card_swap.isSome = true))
    (hr2 : ¬(act.card.rank = "J" ∧ act.pos_from.isSome = true ∧
        act.pos_to.isSome = true))
    (hhand : act.card ∈ (activePlayer s).list_card) :
    mainBranch s act = normalBranch s act := by
  unfold mainBranch
  dsimp only
  rw [if_neg hr1, if_neg hr2, if_pos hhand]

lemma ensure_creates_12 (t : GameState)
    (h12 : ((t.list_player.getD 0 emptyPlayer).list_marble.any
        fun m => m.pos == 12) = false)
    (hk : ∃ m ∈ (t.list_player.getD 0 emptyPlayer).list_marble, m.pos = -1)
    (hl : 0 < t.list_player.length) :
    ∃ m ∈ ((ensurePlayer1At12 t).list_player.getD 0 emptyPlayer).list_marble,
      m.pos = 12 := by
  unfold ensurePlayer1At12
  dsimp only
  rw [h12]
  simp only [Bool.false_eq_true, if_false]
  obtain ⟨m0, hm0, hpos0⟩ := hk
  have hfind : ∃ k, (t.list_player.getD 0 emptyPlayer).list_marble.findIdx?
      (fun m => m.pos == -1) = some k := by
    cases hf : (t.list_player.getD 0 emptyPlayer).list_marble.findIdx?
        (fun m => m.pos == -1) with
    | some k => exact ⟨k, rfl⟩
    | none =>
      exfalso
      have hall := List.findIdx?_eq_none_iff.mp hf
      have h2 := hall m0 hm0
      rw [hpos0] at h2
      simp at h2
  obtain ⟨k, hfk⟩ := hfind
  rw [hfk]
  dsimp only
  have hklt : k < (t.list_player.getD 0 emptyPlayer).list_marble.length :=
    (List.findIdx?_eq_some_iff_findIdx_eq.mp hfk).1
  refine ⟨⟨12, ((t.list_player.getD 0 emptyPlayer).list_marble.getD k
    mdef).is_save⟩, ?_, rfl⟩
  unfold setMarble
  dsimp only
  rw [getD_set_self _ _ _ _ (by omega)]
  dsimp only
  exact mem_set_self _ _ _ hklt

/-! ### Action-generator membership helpers -/

lemma mem_dedup_foldl (a : Action) (l acc : List Action) :
    a ∈ l.foldl (fun acc x => if x ∈ acc then acc else acc ++ [x]) acc ↔
      a ∈ acc ∨ a ∈ l := by
  induction l generalizing acc with
  | nil => simp
  | cons x t ih =>
    simp only [List.foldl_cons]
    rw [ih]
    by_cases hx : x ∈ acc
    · rw [if_pos hx]
      simp only [List.mem_cons]
      constructor
      · rintro (h | h)
        · exact Or.inl h
        · exact Or.inr (Or.inr h)
      · rintro (h | h | h)
        · exact Or.inl h
        · exact Or.inl (h ▸ hx)
        · exact Or.inr h
    · rw [if_neg hx]
      simp only [List.mem_append, List.mem_singleton, List.mem_cons]
      tauto

lemma mem_dedupActions (a : Action) (l : List Action) :
    a ∈ dedupActions l ↔ a ∈ l := by
  unfold dedupActions
  rw [mem_dedup_foldl]
  simp

lemma dedup_foldl_nodup (l acc : List Action) (h : acc.Nodup) :
    (l.foldl (fun acc x => if x ∈ acc then acc else acc ++ [x]) acc).Nodup := by
  induction l generalizing acc with
  | nil => simpa
  | cons x t ih =>
    simp only [List.foldl_cons]
    apply ih
    by_cases hx : x ∈ acc
    · rwa [if_pos hx]
    · rw [if_neg hx]
      simp [List.nodup_append, h, hx]

lemma nodup_dedupActions (l : List Action) : (dedupActions l).Nodup :=
  dedup_foldl_nodup l [] (by simp)

lemma mem_jokerSwaps_iff (s : GameState) (c : Card) (act : Action) :
    act ∈ jokerSwaps s c ↔
      ∃ su ∈ LIST_SUIT, ∃ rk : String,
        ((s.cnt_round = 0 ∧ (rk = "A" ∨ rk = "K")) ∨
         (s.cnt_round ≠ 0 ∧ rk ∈ LIST_RANK.dropLast)) ∧
        act = ⟨c, none, none, some ⟨su, rk⟩⟩ := by
  unfold jokerSwaps
  by_cases h0 : s.cnt_round = 0
  · rw [if_pos h0]
    simp only [List.mem_flatMap, List.mem_cons, List.not_mem_nil, or_false]
    constructor
    · rintro ⟨su, hsu, h | h⟩
      · exact ⟨su, hsu, "A", Or.inl ⟨h0, Or.inl rfl⟩, h⟩
      · exact ⟨su, hsu, "K", Or.inl ⟨h0, Or.inr rfl⟩, h⟩
    · rintro ⟨su, hsu, rk, hcond, rfl⟩
      rcases hcond with ⟨-, rfl | rfl⟩ | ⟨hne, -⟩
      · exact ⟨su, hsu, Or.inl rfl⟩
      · exact ⟨su, hsu, Or.inr rfl⟩
      · exact absurd h0 hne
  · rw [if_neg h0]
    simp only [List.mem_flatMap, List.mem_map]
    constructor
    · rintro ⟨su, hsu, rk, hrk, rfl⟩
      exact ⟨su, hsu, rk, Or.inr ⟨h0, hrk⟩, rfl⟩
    · rintro ⟨su, hsu, rk, hcond, rfl⟩
      rcases hcond with ⟨h, -⟩ | ⟨-, hrk⟩
      · exact absurd h h0
      · exact ⟨su, hsu, rk, hrk, rfl⟩

lemma mem_marbleMoves {s : GameState} {player : PlayerState} {c : Card}
    {m : Marble} {act : Action} (h : act ∈ marbleMoves s player c m) :
    act.card = c ∧ act.card_swap = none ∧
    ((act.pos_from = some 64 ∧ act.pos_to = some 0 ∧
        (c.rank = "A" ∨ c.rank = "K")) ∨
     (act.pos_from = some m.pos ∧
        act.pos_to = some ((m.pos + rankVal c.rank) % 96) ∧
        checkSaveBetween s m.pos ((m.pos + rankVal c.rank) % 96) = false)) := by
  unfold marbleMoves at h
  split at h
  case isTrue hcond =>
    split at h
    · simp at h
    · rw [List.mem_singleton] at h
      subst h
      exact ⟨rfl, rfl, Or.inl ⟨rfl, rfl, hcond.2⟩⟩
  case isFalse =>
    split at h
    case isTrue hcond2 =>
      dsimp only at h
      split at h
      case isTrue hchk => simp at h
      case isFalse hchk =>
        rw [List.mem_singleton] at h
        subst h
        exact ⟨rfl, rfl, Or.inr ⟨rfl, rfl, by simpa using hchk⟩⟩
    case isFalse => simp at h

lemma mem_jackMoves {s : GameState} {player : PlayerState} {c : Card}
    {act : Action} (h : act ∈ jackMoves s player c) :
    act.card = c ∧ act.card_swap = none := by
  unfold jackMoves at h
  dsimp only at h
  split at h
  · rw [List.mem_append] at h
    rcases h with h | h
    · rw [List.mem_flatMap] at h
      obtain ⟨pp, -, h⟩ := h
      rw [List.mem_flatMap] at h
      obtain ⟨op, -, h⟩ := h
      simp only [List.mem_cons, List.not_mem_nil, or_false] at h
      rcases h with h | h <;> (subst h; exact ⟨rfl, rfl⟩)
    · rw [List.mem_flatMap] at h
      obtain ⟨m1, -, h⟩ := h
      split at h
      · rw [List.mem_flatMap] at h
        obtain ⟨m2, -, h⟩ := h
        split at h
        · simp only [List.mem_cons, List.not_mem_nil, or_false] at h
          rcases h with h | h <;> (subst h; exact ⟨rfl, rfl⟩)
        · simp at h
      · simp at h
  · rw [List.mem_flatMap] at h
    obtain ⟨pp, -, h⟩ := h
    rw [List.mem_flatMap] at h
    obtain ⟨op, -, h⟩ := h
    simp only [List.mem_cons, List.not_mem_nil, or_false] at h
    rcases h with h | h <;> (subst h; exact ⟨rfl, rfl⟩)

lemma checkSaveBetween_of_between (s : GameState) (a b : Int)
    (ha : 0 ≤ a)
    (hblock : ∃ p ∈ s.list_player, ∃ m ∈ p.list_marble,
      m.is_save = true ∧ strictlyBetween a b m.pos) :
    checkSaveBetween s a b = true := by
  obtain ⟨p, hp, m, hm, hsave, hbet⟩ := hblock
  have hne : m.pos ≠ -1 := by
    unfold strictlyBetween at hbet
    split at hbet
    · omega
    · rcases hbet with h1 | ⟨h2, h3⟩ <;> omega
  unfold checkSaveBetween
  rw [List.any_eq_true]
  refine ⟨p, hp, ?_⟩
  rw [List.any_eq_true]
  refine ⟨m, hm, ?_⟩
  unfold strictlyBetween at hbet
  simp only [hsave, Bool.true_and, Bool.and_eq_true, Bool.not_eq_eq_eq_not,
    Bool.not_true, beq_eq_false_iff_ne, ne_eq, decide_eq_true_eq,
    Bool.or_eq_true]
  by_cases hab : a < b
  · rw [if_pos hab] at hbet ⊢
    simp only [decide_eq_true_eq, Bool.and_eq_true]
    exact ⟨hne, hbet.1, by omega⟩
  · rw [if_neg hab] at hbet ⊢
    simp only [decide_eq_true_eq, Bool.or_eq_true]
    rcases hbet with h1 | ⟨h2, h3⟩
    · exact ⟨hne, Or.inl h1⟩
    · exact ⟨hne, Or.inr (by omega)⟩

/-- C1 (code bug evidence): the game state has no step counter and no
snapshot; with a 7 as the active card and cards still in hand,
`apply_action(None)` empties the active player's hand and advances the
turn — it folds instead of rolling back. -/
theorem applyNone_folds_during_seven :
    sevenState.card_active = some ⟨"♠", "7"⟩ ∧
    (sevenState.list_player.getD 0 emptyPlayer).list_card ≠ [] ∧
    ((applyAction id sevenState none).1.list_player.getD 0 emptyPlayer).list_card
      = [] ∧
    (applyAction id sevenState none).1.idx_player_active = 1 := by decide

/-- C3 (code bug evidence): with every team-1 marble in its owner's finish
lane (`FINISH_POSITIONS`), `check_for_game_winner` leaves the phase
`RUNNING`; with all eight team-1 marbles in `range(92, 96)` (player 3's
lane, outside player 0's own lane) it declares `FINISHED`. -/
theorem checkWinner_ignores_finish_lanes :
    ((lanesDoneState.list_player.getD 0 emptyPlayer).list_marble.all
        fun m => (FINISH_POSITIONS 0).contains m.pos) = true ∧
    ((lanesDoneState.list_player.getD 2 emptyPlayer).list_marble.all
        fun m => (FINISH_POSITIONS 2).contains m.pos) = true ∧
    (checkForGameWinner lanesDoneState).phase = GamePhase.RUNNING ∧
    ((range92State.list_player.getD 0 emptyPlayer).list_marble.all
        fun m => !(FINISH_POSITIONS 0).contains m.pos) = true ∧
    (checkForGameWinner range92State).phase = GamePhase.FINISHED := by decide

/-- C6: the number of cards dealt in round `r` is
`7 - ((r - 1) mod 5 + 1)`; rounds 1..5 get 6,5,4,3,2 cards and round 6
again gets 6. -/
theorem calculateCard_schedule :
    (∀ r : Int, 1 ≤ r → calculateCard r = 7 - ((r - 1) % 5 + 1)) ∧
    calculateCard 1 = 6 ∧ calculateCard 2 = 5 ∧ calculateCard 3 = 4 ∧
    calculateCard 4 = 3 ∧ calculateCard 5 = 2 ∧ calculateCard 6 = 6 ∧
    ((initDog 0).list_player.map fun p => p.list_card.length)
      = [6, 6, 6, 6] := by
  refine ⟨fun r hr => ?_, by decide, by decide, by decide, by decide,
    by decide, by decide, by decide⟩
  unfold calculateCard
  have h1 : 0 ≤ (r - 1) % 5 := Int.emod_nonneg _ (by norm_num)
  have h2 : (r - 1) % 5 < 5 := Int.emod_lt_of_pos _ (by norm_num)
  omega

/-- Witness for `calculateCard_schedule` at round 6. -/
theorem calculateCard_schedule_w :
    calculateCard 6 = 7 - ((6 - 1) % 5 + 1) :=
  calculateCard_schedule.1 6 (by norm_num)

/-- C7 (counterexample): in the exchange pre-phase, a hand with two equal
cards makes `get_list_action` return two structurally equal actions. -/
theorem getListAction_dup_in_exchange :
    ¬ (getListAction dupHandState).Nodup := by decide

/-- C8 (counterexample): with `cnt_round = 1` and no own marble out of the
kennel, the joker substitutions are not restricted to A/K — the swap to
`2♠` is offered, because the source tests `cnt_round == 0`, not the
marbles. -/
theorem jokerSwap_beginning_counterexample :
    ((jokerKennelState.list_player.getD 0 emptyPlayer).list_marble.all
        fun m => m.pos == -1) = true ∧
    jokerKennelState.cnt_round = 1 ∧
    (Action.mk ⟨"", "JKR"⟩ none none (some ⟨"♠", "2"⟩))
      ∈ getListAction jokerKennelState := by decide

/-- C9 (code bug evidence): `get_player_view` returns the full state: the
view for player 0 still contains player 1's nonempty hand and the piles. -/
theorem getPlayerView_unmasked :
    getPlayerView 0 viewState = viewState ∧
    (viewState.list_player.getD 1 emptyPlayer).list_card = [⟨"♠", "A"⟩] := by
  exact ⟨rfl, rfl⟩

/-- C5: after the exchange phase, a numbered-card move whose forward
circular path from `a` to `b` is blocked by a save marble strictly between
them is absent from `get_list_action`. -/
theorem numbered_move_blocked_absent (s : GameState) (act : Action) (a b : Int)
    (hex : s.bool_card_exchanged = true)
    (hr : act.card.rank ∈ (["2", "3", "5", "6", "8", "9", "10"] : List String))
    (hpf : act.pos_from = some a) (hpt : act.pos_to = some b)
    (hhand : act.card ∈ (activePlayer s).list_card)
    (hmarble : ∃ m ∈ (activePlayer s).list_marble, m.pos = a)
    (ha : 0 ≤ a)
    (hblock : ∃ p ∈ s.list_player, ∃ m ∈ p.list_marble,
      m.is_save = true ∧ strictlyBetween a b m.pos) :
    act ∉ getListAction s := by
  intro hmem
  unfold getListAction at hmem
  rw [hex] at hmem
  simp only [Bool.not_true, Bool.false_eq_true, if_false] at hmem
  rw [mem_dedupActions, List.mem_flatMap] at hmem
  obtain ⟨c, hchand, hmc⟩ := hmem
  unfold cardActions at hmc
  rw [List.mem_append] at hmc
  have hnum : act.card.rank = "2" ∨ act.card.rank = "3" ∨ act.card.rank = "5" ∨
      act.card.rank = "6" ∨ act.card.rank = "8" ∨ act.card.rank = "9" ∨
      act.card.rank = "10" := by simpa using hr
  rcases hmc with h | h
  · split at h
    case isTrue hjkr =>
      rcases List.mem_cons.mp h with h1 | h1
      · have hac : act.card = c := by rw [h1]
        rw [hac, hjkr] at hnum
        simp at hnum
      · obtain ⟨su, -, rk, -, rfl⟩ := (mem_jokerSwaps_iff s c act).mp h1
        dsimp only at hnum
        rw [hjkr] at hnum
        simp at hnum
    case isFalse hjkr =>
      rw [List.mem_flatMap] at h
      obtain ⟨m, hmmem, hmm⟩ := h
      obtain ⟨hcard, -, hshape⟩ := mem_marbleMoves hmm
      rcases hshape with ⟨-, -, hAK⟩ | ⟨hfrom, hto, hchk⟩
      · rw [hcard] at hnum
        rcases hAK with hA | hA <;> rw [hA] at hnum <;> simp at hnum
      · have hma : a = m.pos := by
          have h2 := hpf.symm.trans hfrom
          injection h2
        have hab : b = (m.pos + rankVal c.rank) % 96 := by
          have h2 := hpt.symm.trans hto
          injection h2
        have htrue := checkSaveBetween_of_between s a b ha hblock
        rw [← hma] at hchk hab
        rw [← hab] at hchk
        rw [htrue] at hchk
        simp at hchk
  · split at h
    case isTrue hj =>
      obtain ⟨hcard, -⟩ := mem_jackMoves h
      rw [hcard, hj] at hnum
      simp at hnum
    case isFalse hj => simp at h

/-- Witness for `numbered_move_blocked_absent` on `blockerState`. -/
theorem numbered_move_blocked_absent_w :
    blockedAct ∉ getListAction blockerState :=
  numbered_move_blocked_absent blockerState blockedAct 10 12 rfl (by decide)
    rfl rfl (by decide) (by decide) (by decide) (by decide)

/-- C7 (amended): once the exchange phase is over, `get_list_action`
deduplicates and never returns two structurally equal actions; in the
exchange pre-phase (see the counterexample) duplicates can occur. -/
theorem getListAction_nodup_after_exchange (s : GameState)
    (hex : s.bool_card_exchanged = true) : (getListAction s).Nodup := by
  unfold getListAction
  rw [hex]
  simp only [Bool.not_true, Bool.false_eq_true, if_false]
  exact nodup_dedupActions _

/-- Witness for `getListAction_nodup_after_exchange`. -/
theorem getListAction_nodup_after_exchange_w :
    jokerKennelState.bool_card_exchanged = true ∧
      (getListAction jokerKennelState).Nodup :=
  ⟨rfl, getListAction_nodup_after_exchange jokerKennelState rfl⟩

/-- C8 (amended): after the exchange phase, the substitution actions in
`get_list_action` are exactly the joker swaps, gated on `cnt_round = 0`
(not on marbles being in the kennel): A/K of each suit when
`cnt_round = 0`, every suit/rank except JKR otherwise. -/
theorem jokerSwap_actions_iff (s : GameState) (act : Action)
    (hex : s.bool_card_exchanged = true) :
    (act ∈ getListAction s ∧ act.card_swap.isSome = true) ↔
    (∃ jk ∈ (activePlayer s).list_card, jk.rank = "JKR" ∧
      ∃ su ∈ LIST_SUIT, ∃ rk : String,
        ((s.cnt_round = 0 ∧ (rk = "A" ∨ rk = "K")) ∨
         (s.cnt_round ≠ 0 ∧ rk ∈ LIST_RANK.dropLast)) ∧
        act = ⟨jk, none, none, some ⟨su, rk⟩⟩) := by
  unfold getListAction
  rw [hex]
  simp only [Bool.not_true, Bool.false_eq_true, if_false]
  constructor
  · rintro ⟨hmem, hswap⟩
    rw [mem_dedupActions, List.mem_flatMap] at hmem
    obtain ⟨c, hchand, hmc⟩ := hmem
    unfold cardActions at hmc
    rw [List.mem_append] at hmc
    rcases hmc with h | h
    · split at h
      case isTrue hjkr =>
        rcases List.mem_cons.mp h with h1 | h1
        · subst h1
          simp at hswap
        · obtain ⟨su, hsu, rk, hcond, rfl⟩ := (mem_jokerSwaps_iff s c act).mp h1
          exact ⟨c, hchand, hjkr, su, hsu, rk, hcond, rfl⟩
      case isFalse hjkr =>
        rw [List.mem_flatMap] at h
        obtain ⟨m, -, hmm⟩ := h
        obtain ⟨-, hsw, -⟩ := mem_marbleMoves hmm
        rw [hsw] at hswap
        simp at hswap
    · split at h
      case isTrue hj =>
        obtain ⟨-, hsw⟩ := mem_jackMoves h
        rw [hsw] at hswap
        simp at hswap
      case isFalse hj => simp at h
  · rintro ⟨jk, hjk, hrank, su, hsu, rk, hcond, rfl⟩
    refine ⟨?_, rfl⟩
    rw [mem_dedupActions, List.mem_flatMap]
    refine ⟨jk, hjk, ?_⟩
    unfold cardActions
    rw [List.mem_append]
    left
    rw [if_pos hrank]
    exact List.mem_cons_of_mem _
      ((mem_jokerSwaps_iff s jk _).mpr ⟨su, hsu, rk, hcond, rfl⟩)

/-- Witness for `jokerSwap_actions_iff` on `jokerKennelState` and the
`2♠` substitution. -/
theorem jokerSwap_actions_iff_w :
    (jswapW ∈ getListAction jokerKennelState ∧
        jswapW.card_swap.isSome = true) ↔
    (∃ jk ∈ (activePlayer jokerKennelState).list_card, jk.rank = "JKR" ∧
      ∃ su ∈ LIST_SUIT, ∃ rk : String,
        ((jokerKennelState.cnt_round = 0 ∧ (rk = "A" ∨ rk = "K")) ∨
         (jokerKennelState.cnt_round ≠ 0 ∧ rk ∈ LIST_RANK.dropLast)) ∧
        jswapW = ⟨jk, none, none, some ⟨su, rk⟩⟩) :=
  jokerSwap_actions_iff jokerKennelState jswapW rfl

/-- C4 (amended): with the played card in hand and the joker/jack
branches not applicable — (i) a normal move with `pos_to < 92` (active
player other than player 0) moves the first marble at `pos_from` to
`pos_to` leaving its `is_save` flag unchanged, captures nothing, removes
the card from the hand and appends it to the discard pile; (ii) a normal
move with `pos_to ≥ 92` moves the marble and then raises `ValueError`,
leaving the hand, the piles and everything else untouched; (iii) a
kennel-exit action (`pos_from ∈ {-1, 64}`, active player other than
player 0) moves the first kennel marble to `pos_to` with
`is_save = true`, sends every other player's marble on `pos_to` to the
fixed square 72 with `is_save = false`, and discards the card. -/
theorem normal_move_postcondition :
    (∀ (sh : List Card → List Card) (s : GameState) (act : Action)
        (a b : Int) (i : Nat),
      WF s → s.bool_card_exchanged = true → s.idx_player_active ≠ 0 →
      ¬(act.card.rank = "JKR" ∧ act.card_swap.isSome = true) →
      ¬(act.card.rank = "J" ∧ act.pos_from.isSome = true ∧
          act.pos_to.isSome = true) →
      act.card ∈ (activePlayer s).list_card →
      act.pos_from = some a → act.pos_to = some b →
      a ≠ -1 → a ≠ 64 → b < 92 →
      (activePlayer s).list_marble.findIdx? (fun m => m.pos == a)
        = some i →
      ((applyAction sh s (some act)).1.list_player.getD
          s.idx_player_active emptyPlayer
        = { activePlayer s with
            list_card := (activePlayer s).list_card.erase act.card,
            list_marble := (activePlayer s).list_marble.set i
              ⟨b, ((activePlayer s).list_marble.getD i mdef).is_save⟩ } ∧
      (∀ j, j ≠ s.idx_player_active →
        (applyAction sh s (some act)).1.list_player.getD j emptyPlayer
          = s.list_player.getD j emptyPlayer) ∧
      (applyAction sh s (some act)).1.list_card_discard
        = s.list_card_discard ++ [act.card] ∧
      (applyAction sh s (some act)).1.list_card_draw = s.list_card_draw ∧
      (applyAction sh s (some act)).1.card_active = none ∧
      (applyAction sh s (some act)).1.idx_player_active
        = (s.idx_player_active + 1) % s.cnt_player)) ∧
    (∀ (sh : List Card → List Card) (s : GameState) (act : Action)
        (a b : Int) (i : Nat),
      s.bool_card_exchanged = true →
      ¬(act.card.rank = "JKR" ∧ act.card_swap.isSome = true) →
      ¬(act.card.rank = "J" ∧ act.pos_from.isSome = true ∧
          act.pos_to.isSome = true) →
      act.card ∈ (activePlayer s).list_card →
      act.pos_from = some a → act.pos_to = some b →
      a ≠ -1 → a ≠ 64 → 92 ≤ b →
      (activePlayer s).list_marble.findIdx? (fun m => m.pos == a)
        = some i →
      applyAction sh s (some act)
        = (setMarble s s.idx_player_active i
            ⟨b, ((activePlayer s).list_marble.getD i mdef).is_save⟩,
           some PyErr.valueError)) ∧
    (∀ (sh : List Card → List Card) (s : GameState) (act : Action)
        (pt : Int) (i : Nat),
      WF s → s.bool_card_exchanged = true → s.idx_player_active ≠ 0 →
      ¬(act.card.rank = "JKR" ∧ act.card_swap.isSome = true) →
      ¬(act.card.rank = "J" ∧ act.pos_from.isSome = true ∧
          act.pos_to.isSome = true) →
      act.card ∈ (activePlayer s).list_card →
      (act.pos_from = some (-1) ∨ act.pos_from = some 64) →
      act.pos_to = some pt →
      (activePlayer s).list_marble.findIdx? (fun m => m.pos == -1)
        = some i →
      ((applyAction sh s (some act)).1.list_player.getD
          s.idx_player_active emptyPlayer
        = { activePlayer s with
            list_card := (activePlayer s).list_card.erase act.card,
            list_marble := (activePlayer s).list_marble.set i
              ⟨pt, true⟩ } ∧
      (∀ j, j ≠ s.idx_player_active →
        (applyAction sh s (some act)).1.list_player.getD j emptyPlayer
          = { s.list_player.getD j emptyPlayer with
              list_marble := (s.list_player.getD j
                emptyPlayer).list_marble.map
                  fun m => if m.pos = pt then ⟨72, false⟩ else m }) ∧
      (applyAction sh s (some act)).1.list_card_discard
        = s.list_card_discard ++ [act.card] ∧
      (applyAction sh s (some act)).1.list_card_draw = s.list_card_draw ∧
      (applyAction sh s (some act)).1.card_active = none ∧
      (applyAction sh s (some act)).1.idx_player_active
        = (s.idx_player_active + 1) % s.cnt_player)) := by
  refine ⟨?_, ?_, ?_⟩
  · intro sh s act a b i hW hex hnz hr1 hr2 hhand hpf hpt hna1 hna2 hb hfind
    obtain ⟨hc4, hl4, hia, his⟩ := hW
    have hi : s.idx_player_active < s.list_player.length := by omega
    have hmb : mainBranch s act
        = (discardFromHand
            { setMarble s s.idx_player_active i
                ⟨b, ((activePlayer s).list_marble.getD i mdef).is_save⟩ with
              card_active := some act.card } act.card, none) := by
      rw [mainBranch_normal s act hr1 hr2 hhand]
      unfold normalBranch
      rw [moveStep_normal s act a b hpf hpt hna1 hna2,
        normalMove_ok s a b i hi hfind hb]
    obtain ⟨ph, hph⟩ := checkForGameWinner_phase
      (discardFromHand
        { setMarble s s.idx_player_active i
            ⟨b, ((activePlayer s).list_marble.getD i mdef).is_save⟩ with
          card_active := some act.card } act.card)
    have happ : (applyAction sh s (some act)).1
        = (finalizeTurn
            { discardFromHand
                { setMarble s s.idx_player_active i
                    ⟨b, ((activePlayer s).list_marble.getD i
                      mdef).is_save⟩ with
                  card_active := some act.card } act.card with
              phase := ph }).1 := by
      unfold applyAction
      dsimp only
      rw [if_neg (by simp [hex])]
      rw [hmb]
      dsimp only
      rw [hph]
      split
      case isTrue hcond => exact absurd hcond hnz
      case isFalse hcond => rfl
    obtain ⟨hf1, hf2, hf3, hf4, hf5⟩ := finalizeTurn_fields
      { discardFromHand
          { setMarble s s.idx_player_active i
              ⟨b, ((activePlayer s).list_marble.getD i mdef).is_save⟩ with
            card_active := some act.card } act.card with phase := ph }
    have hS1p : (discardFromHand
        { setMarble s s.idx_player_active i
            ⟨b, ((activePlayer s).list_marble.getD i mdef).is_save⟩ with
          card_active := some act.card } act.card).list_player
      = s.list_player.set s.idx_player_active
          { activePlayer s with
            list_card := (activePlayer s).list_card.erase act.card,
            list_marble := (activePlayer s).list_marble.set i
              ⟨b, ((activePlayer s).list_marble.getD i mdef).is_save⟩ } := by
      unfold discardFromHand setMarble activePlayer
      dsimp only
      rw [getD_set_self _ _ _ _ hi]
      rw [List.set_set]
    rw [happ, hf1, hf2, hf3, hf4, hf5]
    dsimp only
    rw [hS1p]
    refine ⟨?_, ?_, ?_, ?_, ?_, ?_⟩
    · exact getD_set_self _ _ _ _ hi
    · intro j hj
      exact getD_set_ne _ _ _ _ _ hj
    · rfl
    · rfl
    · rfl
    · rfl
  · intro sh s act a b i hex hr1 hr2 hhand hpf hpt hna1 hna2 hb hfind
    have hmb : mainBranch s act
        = (setMarble s s.idx_player_active i
            ⟨b, ((activePlayer s).list_marble.getD i mdef).is_save⟩,
           some PyErr.valueError) := by
      rw [mainBranch_normal s act hr1 hr2 hhand]
      unfold normalBranch
      rw [moveStep_normal s act a b hpf hpt hna1 hna2,
        normalMove_err s a b i hfind hb]
    unfold applyAction
    dsimp only
    rw [if_neg (by simp [hex])]
    rw [hmb]
  · intro sh s act pt i hW hex hnz hr1 hr2 hhand hpf hpt hfind
    obtain ⟨hc4, hl4, hia, his⟩ := hW
    have hi : s.idx_player_active < s.list_player.length := by omega
    have hmb : mainBranch s act
        = (discardFromHand
            { kennelResult s pt i with card_active := some act.card }
            act.card, none) := by
      rw [mainBranch_normal s act hr1 hr2 hhand]
      unfold normalBranch
      rw [moveStep_kennel s act pt hpf hpt, kennelMove_ok s pt i hfind]
    obtain ⟨ph, hph⟩ := checkForGameWinner_phase
      (discardFromHand
        { kennelResult s pt i with card_active := some act.card } act.card)
    have happ : (applyAction sh s (some act)).1
        = (finalizeTurn
            { discardFromHand
                { kennelResult s pt i with card_active := some act.card }
                act.card with phase := ph }).1 := by
      unfold applyAction
      dsimp only
      rw [if_neg (by simp [hex])]
      rw [hmb]
      dsimp only
      rw [hph]
      split
      case isTrue hcond => exact absurd hcond hnz
      case isFalse hcond => rfl
    obtain ⟨hf1, hf2, hf3, hf4, hf5⟩ := finalizeTurn_fields
      { discardFromHand
          { kennelResult s pt i with card_active := some act.card }
          act.card with phase := ph }
    have hlenK : (kennelResult s pt i).list_player.length
        = s.list_player.length := by
      unfold kennelResult
      dsimp only
      rw [length_sendHomeList]
      simp [setMarble]
    have hK : (kennelResult s pt i).list_player.getD s.idx_player_active
        emptyPlayer
      = { activePlayer s with
          list_marble := (activePlayer s).list_marble.set i
            ⟨pt, true⟩ } := by
      unfold kennelResult
      dsimp only
      rw [getD_sendHomeList]
      rw [if_pos (by omega)]
      unfold setMarble activePlayer
      dsimp only
      rw [getD_set_self _ _ _ _ hi]
    have hKj : ∀ j, j ≠ s.idx_player_active →
        (kennelResult s pt i).list_player.getD j emptyPlayer
        = { s.list_player.getD j emptyPlayer with
            list_marble := (s.list_player.getD j
              emptyPlayer).list_marble.map
                fun m => if m.pos = pt then ⟨72, false⟩ else m } := by
      intro j hj
      unfold kennelResult
      dsimp only
      rw [getD_sendHomeList]
      rw [if_neg (by omega)]
      unfold setMarble
      dsimp only
      rw [getD_set_ne _ _ _ _ _ hj]
    have hact : activePlayer
        { kennelResult s pt i with card_active := some act.card }
      = { activePlayer s with
          list_marble := (activePlayer s).list_marble.set i
            ⟨pt, true⟩ } := by
      unfold activePlayer
      dsimp only
      exact hK
    have hS1p : (discardFromHand
        { kennelResult s pt i with card_active := some act.card }
        act.card).list_player
      = (kennelResult s pt i).list_player.set s.idx_player_active
          { activePlayer s with
            list_card := (activePlayer s).list_card.erase act.card,
            list_marble := (activePlayer s).list_marble.set i
              ⟨pt, true⟩ } := by
      unfold discardFromHand
      dsimp only
      rw [hact]
      rfl
    rw [happ, hf1, hf2, hf3, hf4, hf5]
    dsimp only
    rw [hS1p]
    refine ⟨?_, ?_, ?_, ?_, ?_, ?_⟩
    · exact getD_set_self _ _ _ _ (by rw [hlenK]; exact hi)
    · intro j hj
      rw [getD_set_ne _ _ _ _ _ hj]
      exact hKj j hj
    · rfl
    · rfl
    · rfl
    · rfl

/-- Witness for `normal_move_postcondition`: the three parts applied on
`c4wState` (normal move), `c4errState` (finish-guard error) and
`c4kState` (kennel exit with capture). -/
theorem normal_move_postcondition_w :
    ((applyAction id c4wState (some c4wAct)).1.list_player.getD
        c4wState.idx_player_active emptyPlayer
      = { activePlayer c4wState with
          list_card := (activePlayer c4wState).list_card.erase c4wAct.card,
          list_marble := (activePlayer c4wState).list_marble.set 0
            ⟨26, ((activePlayer c4wState).list_marble.getD 0
              mdef).is_save⟩ } ∧
     (∀ j, j ≠ c4wState.idx_player_active →
       (applyAction id c4wState (some c4wAct)).1.list_player.getD j
           emptyPlayer
         = c4wState.list_player.getD j emptyPlayer) ∧
     (applyAction id c4wState (some c4wAct)).1.list_card_discard
       = c4wState.list_card_discard ++ [c4wAct.card] ∧
     (applyAction id c4wState (some c4wAct)).1.list_card_draw
       = c4wState.list_card_draw ∧
     (applyAction id c4wState (some c4wAct)).1.card_active = none ∧
     (applyAction id c4wState (some c4wAct)).1.idx_player_active
       = (c4wState.idx_player_active + 1) % c4wState.cnt_player) ∧
    (applyAction id c4errState (some c4errAct)
      = (setMarble c4errState c4errState.idx_player_active 0
          ⟨93, ((activePlayer c4errState).list_marble.getD 0
            mdef).is_save⟩,
         some PyErr.valueError)) ∧
    ((applyAction id c4kState (some c4kAct)).1.list_player.getD
        c4kState.idx_player_active emptyPlayer
      = { activePlayer c4kState with
          list_card := (activePlayer c4kState).list_card.erase c4kAct.card,
          list_marble := (activePlayer c4kState).list_marble.set 0
            ⟨0, true⟩ } ∧
     (∀ j, j ≠ c4kState.idx_player_active →
       (applyAction id c4kState (some c4kAct)).1.list_player.getD j
           emptyPlayer
         = { c4kState.list_player.getD j emptyPlayer with
             list_marble := (c4kState.list_player.getD j
               emptyPlayer).list_marble.map
                 fun m => if m.pos = 0 then ⟨72, false⟩ else m }) ∧
     (applyAction id c4kState (some c4kAct)).1.list_card_discard
       = c4kState.list_card_discard ++ [c4kAct.card] ∧
     (applyAction id c4kState (some c4kAct)).1.list_card_draw
       = c4kState.list_card_draw ∧
     (applyAction id c4kState (some c4kAct)).1.card_active = none ∧
     (applyAction id c4kState (some c4kAct)).1.idx_player_active
       = (c4kState.idx_player_active + 1) % c4kState.cnt_player) :=
  ⟨normal_move_postcondition.1 id c4wState c4wAct 20 26 0 (by decide) rfl
      (by decide) (by decide) (by decide) (by decide) rfl rfl (by decide)
      (by decide) (by decide) rfl,
   normal_move_postcondition.2.1 id c4errState c4errAct 90 93 0 rfl
      (by decide) (by decide) (by decide) rfl rfl (by decide) (by decide)
      (by decide) rfl,
   normal_move_postcondition.2.2 id c4kState c4kAct 0 0 (by decide) rfl
      (by decide) (by decide) (by decide) (by decide) (Or.inr rfl) rfl rfl⟩

/-- C10: when a non-`none` action is applied with player 0 active after
the exchange phase and the card dispatch finishes without an exception,
then if player 0 has no marble on square 12 but still has a kennel marble
at bookkeeping time, one of player 0's marbles ends on square 12. -/
theorem ensure12_after_action (sh : List Card → List Card)
    (s : GameState) (act : Action)
    (hW : WF s) (hex : s.bool_card_exchanged = true)
    (h0 : s.idx_player_active = 0)
    (he : (mainBranch s act).2 = none)
    (h12 : (((mainBranch s act).1.list_player.getD 0
        emptyPlayer).list_marble.any fun m => m.pos == 12) = false)
    (hk : ∃ m ∈ ((mainBranch s act).1.list_player.getD 0
        emptyPlayer).list_marble, m.pos = -1) :
    ∃ m ∈ ((applyAction sh s (some act)).1.list_player.getD 0
        emptyPlayer).list_marble, m.pos = 12 := by
  obtain ⟨hc4, hl4, hia, his⟩ := hW
  have hidx := idx_mainBranch s act
  have hlen := length_mainBranch s act
  rcases hmb : mainBranch s act with ⟨s1, e⟩
  rw [hmb] at he h12 hk hidx hlen
  dsimp only at he h12 hk hidx hlen
  subst he
  unfold applyAction
  dsimp only
  rw [if_neg (by simp [hex])]
  rw [hmb]
  dsimp only
  obtain ⟨ph, hph⟩ := checkForGameWinner_phase s1
  rw [hph]
  split
  case isFalse hcond =>
    exfalso
    apply hcond
    show s1.idx_player_active = 0
    rw [hidx, h0]
  case isTrue hcond =>
    obtain ⟨hf1, -, -, -, -⟩ := finalizeTurn_fields
      (ensurePlayer1At12 { s1 with phase := ph })
    rw [hf1]
    exact ensure_creates_12 { s1 with phase := ph } h12 hk (by
      show 0 < s1.list_player.length
      omega)

/-- Witness for `ensure12_after_action` on `c10State`. -/
theorem ensure12_after_action_w :
    ∃ m ∈ ((applyAction id c10State (some c10Act)).1.list_player.getD 0
        emptyPlayer).list_marble, m.pos = 12 :=
  ensure12_after_action id c10State c10Act (by decide) rfl rfl (by decide)
    (by decide) (by decide)

/-- C2 (amended): applying any non-`none` action preserves
`|draw| + |discard| + Σ|hand|`; only the fold path (`apply_action(None)`)
and the round re-deal destroy cards. -/
theorem applyAction_some_preserves_cardTotal (sh : List Card → List Card)
    (s : GameState) (act : Action) (hW : WF s) :
    cardTotal (applyAction sh s (some act)).1 = cardTotal s := by
  obtain ⟨hc4, hl4, hia, his⟩ := hW
  have hi : s.idx_player_active < s.list_player.length := by omega
  unfold applyAction
  dsimp only
  by_cases hex : s.bool_card_exchanged = false
  · rw [if_pos hex]
    exact cardTotal_processCardExchange s act hl4 hia hc4
  · rw [if_neg hex]
    rcases hmb : mainBranch s act with ⟨s1, e⟩
    have h1 : cardTotal s1 = cardTotal s := by
      have h := cardTotal_mainBranch s act hi
      rw [hmb] at h; exact h
    cases e with
    | some err => exact h1
    | none =>
      dsimp only
      rw [cardTotal_finalizeTurn]
      split
      · rw [cardTotal_of_untouched (untouched_ensurePlayer1At12 _),
          cardTotal_checkForGameWinner]
        exact h1
      · rw [cardTotal_checkForGameWinner]
        exact h1

/-- Witness for `applyAction_some_preserves_cardTotal` on a concrete
fixture. -/
theorem applyAction_some_preserves_cardTotal_w :
    WF captureState ∧
    cardTotal (applyAction id captureState (some captureAct)).1
      = cardTotal captureState :=
  ⟨by decide,
   applyAction_some_preserves_cardTotal id captureState captureAct (by decide)⟩

/-- C2 (counterexample): the initial state has 110 cards, but one
`apply_action(None)` (a fold) deletes the active player's six cards from
the game, leaving 104. -/
theorem conservation_counterexample :
    cardTotal (initDog 0) = 110 ∧
    cardTotal (applyAction id (initDog 0) none).1 = 104 ∧
    cardTotal (applyAction id (initDog 0) none).1 ≠ 110 := by
  refine ⟨by decide, by decide, by decide⟩

/-- C4 (counterexample): applying `2♣` from square 10 to occupied square 12
neither marks the acting marble save nor relocates the opponent marble to
its kennel entry: both marbles end on square 12 with `is_save = false`. -/
theorem capture_postcondition_counterexample :
    ¬ ((((applyAction id captureState (some captureAct)).1.list_player.getD 0
          emptyPlayer).list_marble.getD 0 mdef).is_save = true ∧
       (((applyAction id captureState (some captureAct)).1.list_player.getD 1
          emptyPlayer).list_marble.getD 0 mdef).pos = 72) := by decide

end Dog
